import Mathlib

/-!
Verification of the numeral/word conversion subsystem of `arabic_nlp_utils`
(`arabic_nlp_utils/numbers.py`), shallowly embedded over `List Char`
(a Python `str` is a sequence of Unicode code points, and every operation
used by the source — `str.translate`, `str.split`, `str.strip`, slicing,
concatenation — is code-point-wise).
-/

set_option maxRecDepth 10000
set_option maxHeartbeats 2000000

abbrev Str := List Char

/-! ## Digit maps (source lines 14-28) -/

def ARABIC_INDIC_DIGITS : Str := "٠١٢٣٤٥٦٧٨٩".data
def EASTERN_ARABIC_DIGITS : Str := "۰۱۲۳۴۵۶۷۸۹".data
def WESTERN_DIGITS : Str := "0123456789".data

/-- Python `str.maketrans(src, dst)`: a character translation table. -/
def maketrans (src dst : Str) : List (Char × Char) := src.zip dst

def AR_TO_WEST : List (Char × Char) := maketrans ARABIC_INDIC_DIGITS WESTERN_DIGITS
def WEST_TO_AR : List (Char × Char) := maketrans WESTERN_DIGITS ARABIC_INDIC_DIGITS
def EAST_TO_WEST : List (Char × Char) := maketrans EASTERN_ARABIC_DIGITS WESTERN_DIGITS
def WEST_TO_EAST : List (Char × Char) := maketrans WESTERN_DIGITS EASTERN_ARABIC_DIGITS
def AR_TO_EAST : List (Char × Char) := maketrans ARABIC_INDIC_DIGITS EASTERN_ARABIC_DIGITS
def EAST_TO_AR : List (Char × Char) := maketrans EASTERN_ARABIC_DIGITS ARABIC_INDIC_DIGITS

/-- A single character under a Python translation table: mapped if present,
unchanged otherwise. -/
def translateChar (tbl : List (Char × Char)) (c : Char) : Char :=
  match tbl.find? (fun p => p.1 == c) with
  | some p => p.2
  | none => c

/-- Python `text.translate(tbl)`: character-wise application of the table.
(Named `translateStr` because plain `translate` collides with Mathlib.) -/
def translateStr (tbl : List (Char × Char)) (s : Str) : Str :=
  s.map (translateChar tbl)

/-- `to_western_numerals` (source lines 31-40):
`text.translate(_AR_TO_WEST).translate(_EAST_TO_WEST)`. -/
def to_western_numerals (text : Str) : Str :=
  translateStr EAST_TO_WEST (translateStr AR_TO_WEST text)

/-- `to_arabic_numerals` (source lines 43-52):
`text.translate(_WEST_TO_AR).translate(_EAST_TO_AR)`. -/
def to_arabic_numerals (text : Str) : Str :=
  translateStr EAST_TO_AR (translateStr WEST_TO_AR text)

/-- `to_eastern_numerals` (source lines 55-64):
`text.translate(_WEST_TO_EAST).translate(_AR_TO_EAST)`. -/
def to_eastern_numerals (text : Str) : Str :=
  translateStr AR_TO_EAST (translateStr WEST_TO_EAST text)

/-! ## Number extraction (source lines 67-78) -/

/-- A character matched by the regex class `[0-9]`. -/
def isWesternDigit (c : Char) : Bool := decide ('0' ≤ c) && decide (c ≤ '9')

/-- Accumulator form of `WESTERN_DIGIT_PATTERN.findall`: collect the maximal
runs of consecutive `[0-9]` characters, left to right. `acc` holds the
(reversed) run in progress. -/
def digitRunsAux : Str → Str → List Str
  | [], acc => if acc.isEmpty then [] else [acc.reverse]
  | c :: rest, acc =>
    if isWesternDigit c then digitRunsAux rest (c :: acc)
    else if acc.isEmpty then digitRunsAux rest []
    else acc.reverse :: digitRunsAux rest []

/-- `re.findall(r'[0-9]+', s)`: the maximal runs of Western digits in `s`. -/
def digitRuns (s : Str) : List Str := digitRunsAux s []

/-- Python `int(run)` on a string of `[0-9]` digits (base 10, leading zeros
permitted). -/
def parseNat (s : Str) : Nat :=
  s.foldl (fun acc c => acc * 10 + (c.toNat - '0'.toNat)) 0

/-- `extract_numbers` (source lines 67-78): transcode everything to Western
digits, then parse each maximal digit run. -/
def extract_numbers (text : Str) : List Nat :=
  (digitRuns (to_western_numerals text)).map parseNat

/-! ## Lexicon tables (source lines 83-105) -/

def ONES : List Str :=
  ["", "واحد", "اثنان", "ثلاثة", "أربعة", "خمسة",
   "ستة", "سبعة", "ثمانية", "تسعة"].map (fun s => s.data)

def TEENS : List Str :=
  ["عشرة", "أحد عشر", "اثنا عشر", "ثلاثة عشر", "أربعة عشر",
   "خمسة عشر", "ستة عشر", "سبعة عشر", "ثمانية عشر", "تسعة عشر"].map (fun s => s.data)

def TENS : List Str :=
  ["", "", "عشرون", "ثلاثون", "أربعون", "خمسون",
   "ستون", "سبعون", "ثمانون", "تسعون"].map (fun s => s.data)

def HUNDREDS : List Str :=
  ["", "مئة", "مئتان", "ثلاثمئة", "أربعمئة", "خمسمئة",
   "ستمئة", "سبعمئة", "ثمانمئة", "تسعمئة"].map (fun s => s.data)

def SCALE : List (Str × Str) :=
  [("", ""), ("ألف", "آلاف"), ("مليون", "ملايين"),
   ("مليار", "مليارات"), ("تريليون", "تريليونات")].map
    (fun p => (p.1.data, p.2.data))

/-- Python `' و'.join(parts)`. -/
def joinSep : List Str → Str
  | [] => []
  | [x] => x
  | x :: xs => x ++ " و".data ++ joinSep xs

/-- `_number_under_1000` (source lines 108-131). Skipped (empty) table
entries are never appended because the source guards each append with a
truthiness test on the index. -/
def number_under_1000 (n : Nat) : Str :=
  if n = 0 then []
  else
    let hundreds := n / 100
    let remainder := n % 100
    let parts0 : List Str := if hundreds ≠ 0 then [HUNDREDS.getD hundreds []] else []
    let parts : List Str :=
      if 10 ≤ remainder ∧ remainder ≤ 19 then
        parts0 ++ [TEENS.getD (remainder - 10) []]
      else
        let tens := remainder / 10
        let ones := remainder % 10
        parts0 ++ (if ones ≠ 0 then [ONES.getD ones []] else [])
               ++ (if tens ≠ 0 then [TENS.getD tens []] else [])
    joinSep parts

/-- Python `s.rstrip('ة')`: drop every trailing taa-marbuta. -/
def rstripTa (s : Str) : Str :=
  (s.reverse.dropWhile (fun c => c == 'ة')).reverse

/-- The dual form built by the source (line 173):
`singular.rstrip('ة') + 'ان' if singular.endswith('ة') else singular + 'ان'`. -/
def dualize (sing : Str) : Str :=
  if sing.getLast? == some 'ة' then rstripTa sing ++ "ان".data
  else sing ++ "ان".data

/-- The tier-agreement rule applied to a nonzero group at a tier index `> 0`
(source lines 168-177), given that tier's singular and plural forms. -/
def tierGroupWords (group : Nat) (sing plur : Str) : Str :=
  if group = 1 then sing
  else if group = 2 then dualize sing
  else if 3 ≤ group ∧ group ≤ 10 then number_under_1000 group ++ [' '] ++ plur
  else number_under_1000 group ++ [' '] ++ sing

/-- The `while remaining > 0` loop of `number_to_words` (source lines
163-181), as a recursion producing the group word list least-significant
tier first. `_SCALE[scale_idx]` raising `IndexError` when `scale_idx` is
past the table is modelled as `none`. The `fuel` argument only makes the
recursion structural; it is called with `fuel = remaining`, which bounds
the iteration count since `remaining` shrinks by `// 1000` each step
(`scaleGroups` below). -/
def scaleGroupsF : Nat → Nat → Nat → Option (List Str)
  | _, 0, _ => some []
  | 0, _ + 1, _ => none
  | fuel + 1, r + 1, scaleIdx =>
    let remaining := r + 1
    let group := remaining % 1000
    match scaleGroupsF fuel (remaining / 1000) (scaleIdx + 1) with
    | none => none
    | some gs =>
      if group = 0 then some gs
      else if scaleIdx = 0 then some (number_under_1000 group :: gs)
      else
        match SCALE[scaleIdx]? with
        | none => none
        | some sp => some (tierGroupWords group sp.1 sp.2 :: gs)

def scaleGroups (remaining scaleIdx : Nat) : Option (List Str) :=
  scaleGroupsF remaining remaining scaleIdx

/-- `number_to_words` (source lines 134-184). The source's negative branch
`'سالب ' + number_to_words(-n)` recurses on `-n > 0`, which lands directly
in the grouping loop, so it is inlined here. Returns `none` exactly when
the loop would raise `IndexError` (`_SCALE[scale_idx]` out of range). -/
def number_to_words (n : Int) : Option Str :=
  if n = 0 then some "صفر".data
  else if n < 0 then
    (scaleGroups n.natAbs 0).map (fun gs => "سالب ".data ++ joinSep gs.reverse)
  else
    (scaleGroups n.natAbs 0).map (fun gs => joinSep gs.reverse)

/-! ## Word decoding (source lines 187-231) -/

/-- The reverse lookup table built inside `words_to_number` (source lines
206-221), in insertion order. No key is inserted twice, so first-match
lookup in this association list agrees with the Python dict. -/
def word_map : List (Str × Nat) :=
  (ONES.enum.filterMap (fun p => if p.2.isEmpty then none else some (p.2, p.1)))
  ++ (TEENS.enum.map (fun p => (p.2, p.1 + 10)))
  ++ (TENS.enum.filterMap (fun p => if p.2.isEmpty then none else some (p.2, p.1 * 10)))
  ++ (HUNDREDS.enum.filterMap (fun p => if p.2.isEmpty then none else some (p.2, p.1 * 100)))
  ++ [("ألف".data, 1000), ("ألفان".data, 2000),
      ("مليون".data, 1000000), ("مليار".data, 1000000000)]

/-- Python whitespace stripped by `str.strip()` on the inputs in play. -/
def isSpace (c : Char) : Bool := c == ' ' || c == '\t' || c == '\n' || c == '\r'

/-- Python `s.strip()`. -/
def strip (s : Str) : Str :=
  ((s.dropWhile isSpace).reverse.dropWhile isSpace).reverse

/-- Python `s.split(sep)` for a single-character separator: splits at every
occurrence, keeping empty parts; the empty string yields `[""]`. -/
def splitChar (sep : Char) : Str → List Str
  | [] => [[]]
  | c :: rest =>
    match splitChar sep rest with
    | [] => [[c]]
    | p :: ps => if c == sep then [] :: p :: ps else (c :: p) :: ps

/-- `words_to_number` (source lines 187-231). The source's
`text.replace(' و', ' و')` replaces a string by itself and is a no-op; the
split is on the single character `'و'`, and each part is stripped (the
loop's second `part.strip()` re-strips an already stripped part, a no-op).
Unmatched parts add nothing. Values are Python ints, so the result is `Int`. -/
def words_to_number (text : Str) : Int :=
  let t := strip text
  if t = "صفر".data then 0
  else
    let parts := (splitChar 'و' t).map strip
    parts.foldl
      (fun total part =>
        match word_map.find? (fun p => p.1 == part) with
        | some p => total + (p.2 : Int)
        | none => total) 0

/-! ## Helper definitions for the transcoder theorems -/

/-- All thirty digit glyphs of the three systems. -/
def allSystemDigits : Str :=
  ARABIC_INDIC_DIGITS ++ EASTERN_ARABIC_DIGITS ++ WESTERN_DIGITS

/-- The action of `to_western_numerals` on one character. -/
def westChar (c : Char) : Char :=
  translateChar EAST_TO_WEST (translateChar AR_TO_WEST c)

/-- The action of `to_arabic_numerals` on one character. -/
def arabChar (c : Char) : Char :=
  translateChar EAST_TO_AR (translateChar WEST_TO_AR c)

/-- The action of `to_eastern_numerals` on one character. -/
def eastChar (c : Char) : Char :=
  translateChar AR_TO_EAST (translateChar WEST_TO_EAST c)

/-! ## Lemmas about the digit transcoders -/

theorem translateChar_eq_self {src dst : Str} {c : Char} (h : c ∉ src) :
    translateChar (maketrans src dst) c = c := by
  unfold translateChar
  have hnone : (maketrans src dst).find? (fun p => p.1 == c) = none := by
    rw [List.find?_eq_none]
    intro p hp
    obtain ⟨a, b⟩ := p
    have hmem : a ∈ src := (List.of_mem_zip hp).1
    have : a ≠ c := fun hac => h (hac ▸ hmem)
    simp [this]
  rw [hnone]

theorem westChar_eq_self {c : Char} (h : c ∉ allSystemDigits) : westChar c = c := by
  simp only [allSystemDigits, List.mem_append, not_or] at h
  unfold westChar AR_TO_WEST EAST_TO_WEST
  rw [translateChar_eq_self h.1.1, translateChar_eq_self h.1.2]

theorem arabChar_eq_self {c : Char} (h : c ∉ allSystemDigits) : arabChar c = c := by
  simp only [allSystemDigits, List.mem_append, not_or] at h
  unfold arabChar WEST_TO_AR EAST_TO_AR
  rw [translateChar_eq_self h.2, translateChar_eq_self h.1.2]

theorem eastChar_eq_self {c : Char} (h : c ∉ allSystemDigits) : eastChar c = c := by
  simp only [allSystemDigits, List.mem_append, not_or] at h
  unfold eastChar WEST_TO_EAST AR_TO_EAST
  rw [translateChar_eq_self h.2, translateChar_eq_self h.1.1]

theorem to_western_eq_map (t : Str) : to_western_numerals t = t.map westChar := by
  simp only [to_western_numerals, translateStr, List.map_map]
  rfl

theorem to_arabic_eq_map (t : Str) : to_arabic_numerals t = t.map arabChar := by
  simp only [to_arabic_numerals, translateStr, List.map_map]
  rfl

theorem to_eastern_eq_map (t : Str) : to_eastern_numerals t = t.map eastChar := by
  simp only [to_eastern_numerals, translateStr, List.map_map]
  rfl

theorem digit_idem :
    ∀ c ∈ allSystemDigits,
      westChar (westChar c) = westChar c ∧ arabChar (arabChar c) = arabChar c ∧
      eastChar (eastChar c) = eastChar c := by decide

theorem westChar_idem (c : Char) : westChar (westChar c) = westChar c := by
  by_cases h : c ∈ allSystemDigits
  · exact (digit_idem c h).1
  · rw [westChar_eq_self h, westChar_eq_self h]

theorem arabChar_idem (c : Char) : arabChar (arabChar c) = arabChar c := by
  by_cases h : c ∈ allSystemDigits
  · exact (digit_idem c h).2.1
  · rw [arabChar_eq_self h, arabChar_eq_self h]

theorem eastChar_idem (c : Char) : eastChar (eastChar c) = eastChar c := by
  by_cases h : c ∈ allSystemDigits
  · exact (digit_idem c h).2.2
  · rw [eastChar_eq_self h, eastChar_eq_self h]

theorem digit_west_absorb :
    ∀ c ∈ allSystemDigits,
      westChar (arabChar c) = westChar c ∧ westChar (eastChar c) = westChar c := by decide

theorem westChar_arabChar (c : Char) : westChar (arabChar c) = westChar c := by
  by_cases h : c ∈ allSystemDigits
  · exact (digit_west_absorb c h).1
  · rw [arabChar_eq_self h]

theorem westChar_eastChar (c : Char) : westChar (eastChar c) = westChar c := by
  by_cases h : c ∈ allSystemDigits
  · exact (digit_west_absorb c h).2
  · rw [eastChar_eq_self h]

theorem digit_pair_roundtrip :
    ∀ c ∈ allSystemDigits,
      (c ∈ WESTERN_DIGITS →
        to_western_numerals (to_arabic_numerals [c]) = [c] ∧
        to_western_numerals (to_eastern_numerals [c]) = [c]) ∧
      (c ∈ ARABIC_INDIC_DIGITS →
        to_arabic_numerals (to_western_numerals [c]) = [c] ∧
        to_arabic_numerals (to_eastern_numerals [c]) = [c]) ∧
      (c ∈ EASTERN_ARABIC_DIGITS →
        to_eastern_numerals (to_western_numerals [c]) = [c] ∧
        to_eastern_numerals (to_arabic_numerals [c]) = [c]) := by decide

/-! ## Claim theorems: transcoders -/

/-- C6: for every ordered pair of distinct numeral systems (A, B) and every
digit character of system A, transcoding to B and then back to A returns the
character unchanged; and every character that is a digit of none of the three
systems passes through each of the three transcoding functions unchanged at
its position in any surrounding text. -/
theorem C6_transcoder_roundtrip :
    ∀ c : Char,
      (c ∈ WESTERN_DIGITS →
        to_western_numerals (to_arabic_numerals [c]) = [c] ∧
        to_western_numerals (to_eastern_numerals [c]) = [c]) ∧
      (c ∈ ARABIC_INDIC_DIGITS →
        to_arabic_numerals (to_western_numerals [c]) = [c] ∧
        to_arabic_numerals (to_eastern_numerals [c]) = [c]) ∧
      (c ∈ EASTERN_ARABIC_DIGITS →
        to_eastern_numerals (to_western_numerals [c]) = [c] ∧
        to_eastern_numerals (to_arabic_numerals [c]) = [c]) ∧
      (c ∉ allSystemDigits → ∀ t₁ t₂ : Str,
        to_western_numerals (t₁ ++ c :: t₂)
          = to_western_numerals t₁ ++ c :: to_western_numerals t₂ ∧
        to_arabic_numerals (t₁ ++ c :: t₂)
          = to_arabic_numerals t₁ ++ c :: to_arabic_numerals t₂ ∧
        to_eastern_numerals (t₁ ++ c :: t₂)
          = to_eastern_numerals t₁ ++ c :: to_eastern_numerals t₂) := by
  intro c
  refine ⟨?_, ?_, ?_, ?_⟩
  · intro hc
    exact (digit_pair_roundtrip c
      (by simp [allSystemDigits, List.mem_append, hc])).1 hc
  · intro hc
    exact (digit_pair_roundtrip c
      (by simp [allSystemDigits, List.mem_append, hc])).2.1 hc
  · intro hc
    exact (digit_pair_roundtrip c
      (by simp [allSystemDigits, List.mem_append, hc])).2.2 hc
  · intro hc t₁ t₂
    refine ⟨?_, ?_, ?_⟩
    · simp [to_western_eq_map, westChar_eq_self hc]
    · simp [to_arabic_eq_map, arabChar_eq_self hc]
    · simp [to_eastern_eq_map, eastChar_eq_self hc]

theorem C6_transcoder_roundtrip_witness :
    '5' ∈ WESTERN_DIGITS ∧ to_western_numerals (to_arabic_numerals ['5']) = ['5'] :=
  ⟨by decide, ((C6_transcoder_roundtrip '5').1 (by decide)).1⟩

/-- C7: each of the three transcoding functions is a total function (the
embedding assigns an output text to every input text) and is idempotent. -/
theorem C7_transcoder_idempotent (t : Str) :
    to_western_numerals (to_western_numerals t) = to_western_numerals t ∧
    to_arabic_numerals (to_arabic_numerals t) = to_arabic_numerals t ∧
    to_eastern_numerals (to_eastern_numerals t) = to_eastern_numerals t := by
  refine ⟨?_, ?_, ?_⟩
  · simp only [to_western_eq_map, List.map_map]
    exact List.map_congr_left (fun c _ => westChar_idem c)
  · simp only [to_arabic_eq_map, List.map_map]
    exact List.map_congr_left (fun c _ => arabChar_idem c)
  · simp only [to_eastern_eq_map, List.map_map]
    exact List.map_congr_left (fun c _ => eastChar_idem c)

/-- C8: `extract_numbers` is invariant under re-spelling the digits of the
input in any of the three systems: transcoding first changes nothing about
the extracted integer sequence. -/
theorem C8_extract_invariant (t : Str) :
    extract_numbers (to_western_numerals t) = extract_numbers t ∧
    extract_numbers (to_arabic_numerals t) = extract_numbers t ∧
    extract_numbers (to_eastern_numerals t) = extract_numbers t := by
  have key : ∀ f : Char → Char, (∀ c, westChar (f c) = westChar c) →
      ∀ s : Str, extract_numbers (s.map f) = extract_numbers s := by
    intro f hf s
    unfold extract_numbers
    rw [to_western_eq_map, to_western_eq_map, List.map_map]
    congr 2
    exact List.map_congr_left (fun c _ => hf c)
  refine ⟨?_, ?_, ?_⟩
  · rw [to_western_eq_map]
    exact key westChar westChar_idem t
  · rw [to_arabic_eq_map]
    exact key arabChar westChar_arabChar t
  · rw [to_eastern_eq_map]
    exact key eastChar westChar_eastChar t

/-! ## Claim theorems: encoder examples -/

/-- C5: `number_to_words` returns exactly the eight fixed example outputs
from the spec (and the source doctests). -/
theorem C5_encoder_examples :
    number_to_words 0 = some ("صفر".data) ∧
    number_to_words 1 = some ("واحد".data) ∧
    number_to_words 15 = some ("خمسة عشر".data) ∧
    number_to_words 20 = some ("عشرون".data) ∧
    number_to_words 123 = some ("مئة وثلاثة وعشرون".data) ∧
    number_to_words 1000 = some ("ألف".data) ∧
    number_to_words 2025 = some ("ألفان وخمسة وعشرون".data) ∧
    number_to_words (-5) = some ("سالب خمسة".data) := by
  decide

/-! ## Claim theorems: decoder -/

/-- The decode loop's running total equals the sum of the per-part lookup
contributions, unmatched parts contributing zero. -/
theorem foldl_lookup_eq_sum (l : List Str) (acc : Int) :
    l.foldl
      (fun total part =>
        match word_map.find? (fun p => p.1 == part) with
        | some p => total + (p.2 : Int)
        | none => total) acc
    = acc + (l.map (fun part =>
        ((word_map.find? (fun p => p.1 == part)).map (fun p => (p.2 : Int))).getD 0)).sum := by
  induction l generalizing acc with
  | nil => simp
  | cons x xs ih =>
    simp only [List.foldl_cons, List.map_cons, List.sum_cons]
    rw [ih]
    cases h : word_map.find? (fun p => p.1 == x) <;> simp [h] <;> ring

/-- C9: `words_to_number` is total and unconditionally lenient: on every
input it returns the sum of the WordMap values of the recognized parts,
each unrecognized part contributing zero rather than an error; and it
returns the documented values on "صفر", "ثلاثة" and "خمسة عشر". -/
theorem C9_decoder_lenient :
    (∀ text : Str, words_to_number text =
      if strip text = "صفر".data then 0
      else (((splitChar 'و' (strip text)).map strip).map (fun part =>
        ((word_map.find? (fun p => p.1 == part)).map (fun p => (p.2 : Int))).getD 0)).sum) ∧
    words_to_number ("صفر".data) = 0 ∧
    words_to_number ("ثلاثة".data) = 3 ∧
    words_to_number ("خمسة عشر".data) = 15 := by
  refine ⟨?_, by decide, by decide, by decide⟩
  intro text
  unfold words_to_number
  dsimp only
  split
  · rfl
  · rw [foldl_lookup_eq_sum, zero_add]

/-- C10: the decoded value is never negative: every WordMap value is a
non-negative constant and the negative marker "سالب" has no WordMap entry,
so `words_to_number` sums non-negative contributions — in particular the
sign of an encoded negative number ("سالب خمسة") is silently lost. -/
theorem C10_decoder_nonneg :
    (∀ text : Str, 0 ≤ words_to_number text) ∧
    word_map.find? (fun p => p.1 == "سالب".data) = none ∧
    words_to_number ("سالب خمسة".data) = 0 := by
  refine ⟨?_, by decide, by decide⟩
  intro text
  unfold words_to_number
  dsimp only
  split
  · exact le_refl 0
  · rw [foldl_lookup_eq_sum, zero_add]
    apply List.sum_nonneg
    intro x hx
    simp only [List.mem_map] at hx
    obtain ⟨part, -, rfl⟩ := hx
    cases h : word_map.find? (fun p => p.1 == part) <;> simp [h]

/-- C3 counterexample: contrary to the claim, the whole-word input "مليون"
decodes to 0, not 1000000 — the split on the conjunction character 'و' cuts
inside the word itself, so its WordMap entry is never reached. -/
theorem C3_counterexample :
    words_to_number ("مليون".data) = 0 ∧ words_to_number ("مليون".data) ≠ 1000000 := by
  decide

/-- C3 amended: of the four fixed WordMap scale entries given as whole
inputs, "ألف", "ألفان" and "مليار" decode to their table values, while
"مليون" (which contains the conjunction character 'و') decodes to 0. -/
theorem C3_scale_entries :
    words_to_number ("ألف".data) = 1000 ∧
    words_to_number ("ألفان".data) = 2000 ∧
    words_to_number ("مليار".data) = 1000000000 ∧
    words_to_number ("مليون".data) = 0 := by
  decide

/-- C1 counterexample: the round trip fails inside [0, 999]: encoding 1
gives "واحد", which decodes to 0 because the split on 'و' cuts the word. -/
theorem C1_counterexample :
    (number_to_words 1).map words_to_number = some 0 ∧
    (number_to_words 1).map words_to_number ≠ some 1 := by
  decide

/-- C1 amended: for n in [0, 999] the round trip
`words_to_number (number_to_words n) = n` holds exactly when the last two
decimal digits of n are 00, 02-09 or 10-19; it fails whenever the ones
digit is 1 or the tens digit is at least 2, because the decoder's split on
the conjunction character 'و' also cuts inside "واحد" and inside every
tens word. -/
theorem C1_roundtrip_characterization :
    ∀ n : Nat, n < 1000 →
      (((number_to_words (n : Int)).map words_to_number = some (n : Int)) ↔
        (n % 100 = 0 ∨ (2 ≤ n % 100 ∧ n % 100 ≤ 19))) := by
  decide

/-! ## Claim theorems: encoder totality and tier agreement -/

/-- When the remaining value fits under the scale table's capacity
(`1000 ^ (5 - scaleIdx)`), the grouping loop never reaches a tier index past
the table, so it never fails. -/
theorem scaleGroupsF_isSome :
    ∀ fuel r idx : Nat, r ≤ fuel → r < 1000 ^ (5 - idx) →
      (scaleGroupsF fuel r idx).isSome := by
  intro fuel
  induction fuel with
  | zero =>
    intro r idx hr _
    have hz : r = 0 := Nat.le_zero.mp hr
    subst hz
    simp [scaleGroupsF]
  | succ f ih =>
    intro r idx hr hb
    match r with
    | 0 => simp [scaleGroupsF]
    | r' + 1 =>
      have hidx : idx < 5 := by
        by_contra hcon
        push_neg at hcon
        rw [Nat.sub_eq_zero_of_le hcon, pow_zero] at hb
        omega
      have hlt : (r' + 1) / 1000 < r' + 1 := Nat.div_lt_self (Nat.succ_pos r') (by norm_num)
      have hdle : (r' + 1) / 1000 ≤ f := by omega
      have hdlt : (r' + 1) / 1000 < 1000 ^ (5 - (idx + 1)) := by
        have h5 : 5 - idx = (5 - (idx + 1)) + 1 := by omega
        rw [h5, pow_succ, mul_comm] at hb
        exact Nat.div_lt_of_lt_mul hb
      have hrec := ih ((r' + 1) / 1000) (idx + 1) hdle hdlt
      obtain ⟨sp, hsp⟩ : ∃ sp, SCALE[idx]? = some sp := by
        have hl : idx < SCALE.length := by
          simp only [SCALE, List.length_map, List.length_cons]
          omega
        exact ⟨SCALE[idx], List.getElem?_eq_getElem hl⟩
      simp only [scaleGroupsF]
      cases hres : scaleGroupsF f ((r' + 1) / 1000) (idx + 1) with
      | none => rw [hres] at hrec; simp at hrec
      | some gs =>
        dsimp only
        simp only [hsp]
        split
        · simp
        · split <;> simp

/-- C2 counterexample: contrary to the claim, `number_to_words` is not total
at magnitude `10 ^ 15`: the loop reaches scale index 5, past the end of the
`_SCALE` table (an `IndexError` in the source, `none` in the embedding). -/
theorem C2_counterexample : number_to_words 1000000000000000 = none := by decide

/-- C2 amended: `number_to_words` succeeds on every integer whose magnitude
is below `1000 ^ 5 = 10 ^ 15` (the capacity of the scale-tier table); at or
above that magnitude the source raises `IndexError`. -/
theorem C2_encoder_total_below_scale_capacity :
    ∀ n : Int, n.natAbs < 1000 ^ 5 → (number_to_words n).isSome := by
  intro n h
  have hpos : (scaleGroupsF n.natAbs n.natAbs 0).isSome :=
    scaleGroupsF_isSome n.natAbs n.natAbs 0 le_rfl h
  unfold number_to_words scaleGroups
  split
  · simp
  · split <;>
      · cases hres : scaleGroupsF n.natAbs n.natAbs 0 with
        | none => rw [hres] at hpos; simp at hpos
        | some gs => simp [hres]

theorem C2_encoder_total_witness :
    ((-2025 : Int).natAbs < 1000 ^ 5) ∧ (number_to_words (-2025)).isSome :=
  ⟨by decide, C2_encoder_total_below_scale_capacity (-2025) (by decide)⟩

/-- The group words the claim expects for a nonzero group value `g` at tier
index `t ≥ 1`, written from the claim's own wording: value 1 gives the
tier's singular alone; value 2 the singular with the dual ending appended
(stripping one trailing feminine marker first when present); values 3-10
the under-1000 words followed by the plural; values 11-999 the under-1000
words followed by the singular. -/
def tierWordsSpec (g t : Nat) : Str :=
  let sing := (SCALE.getD t ([], [])).1
  let plur := (SCALE.getD t ([], [])).2
  if g = 1 then sing
  else if g = 2 then
    (if sing.getLast? = some 'ة' then sing.dropLast ++ "ان".data else sing ++ "ان".data)
  else if 3 ≤ g ∧ g ≤ 10 then number_under_1000 g ++ [' '] ++ plur
  else number_under_1000 g ++ [' '] ++ sing

/-- One factor of 1000 in the remaining value is one loop iteration with a
zero group: it contributes no words and moves to the next scale index. -/
theorem scaleGroupsF_shift (f r idx : Nat) (hr : 1 ≤ r) :
    scaleGroupsF (f + 1) (r * 1000) idx = scaleGroupsF f r (idx + 1) := by
  obtain ⟨s, hs⟩ : ∃ s, r * 1000 = s + 1 := ⟨r * 1000 - 1, by omega⟩
  rw [hs]
  simp only [scaleGroupsF]
  rw [← hs, Nat.mul_mod_left, Nat.mul_div_cancel r (by norm_num : 0 < 1000)]
  cases scaleGroupsF f r (idx + 1) <;> simp

theorem scaleGroupsF_pow_shift (t : Nat) :
    ∀ f g idx : Nat, 1 ≤ g →
      scaleGroupsF (f + t) (g * 1000 ^ t) idx = scaleGroupsF f g (idx + t) := by
  induction t with
  | zero => intro f g idx _; simp
  | succ j ih =>
    intro f g idx hg
    have h1 : g * 1000 ^ (j + 1) = (g * 1000 ^ j) * 1000 := by ring
    have hpos : 1 ≤ g * 1000 ^ j :=
      Nat.mul_pos hg (pow_pos (by norm_num) j)
    rw [h1, show f + (j + 1) = (f + j) + 1 from rfl,
      scaleGroupsF_shift (f + j) (g * 1000 ^ j) idx hpos, ih f g (idx + 1) hg,
      show idx + 1 + j = idx + (j + 1) from by omega]

/-- A nonzero group value below 1000 at a valid scale index `≥ 1` is the
last loop iteration and yields exactly the tier-agreement words. -/
theorem scaleGroupsF_small (f g idx : Nat) (hg1 : 1 ≤ g) (hg2 : g ≤ 999)
    (hidx : 1 ≤ idx) (sp : Str × Str) (hsp : SCALE[idx]? = some sp) :
    scaleGroupsF (f + 1) g idx = some [tierGroupWords g sp.1 sp.2] := by
  obtain ⟨u, hu⟩ : ∃ u, g = u + 1 := ⟨g - 1, by omega⟩
  subst hu
  simp only [scaleGroupsF]
  rw [Nat.mod_eq_of_lt (by omega), Nat.div_eq_of_lt (by omega)]
  have h0 : scaleGroupsF f 0 (idx + 1) = some [] := by
    cases f <;> simp [scaleGroupsF]
  rw [h0]
  have hne : ¬(u + 1 = 0) := by omega
  have hidx0 : ¬(idx = 0) := by omega
  simp [hne, hidx0, hsp]

theorem scaleGroups_mul_pow (g t : Nat) (hg1 : 1 ≤ g) (hg2 : g ≤ 999)
    (ht : 1 ≤ t) (sp : Str × Str) (hsp : SCALE[t]? = some sp) :
    scaleGroups (g * 1000 ^ t) 0 = some [tierGroupWords g sp.1 sp.2] := by
  unfold scaleGroups
  have hbig : t + 1 ≤ g * 1000 ^ t := by
    have h2 : 1000 ^ t ≤ g * 1000 ^ t := Nat.le_mul_of_pos_left _ hg1
    have h4 : t < 1000 ^ t := Nat.lt_pow_self (by norm_num) t
    omega
  have hshift := scaleGroupsF_pow_shift t (g * 1000 ^ t - t) g 0 hg1
  rw [show (g * 1000 ^ t - t) + t = g * 1000 ^ t from by omega] at hshift
  rw [hshift]
  obtain ⟨f, hf⟩ : ∃ f, g * 1000 ^ t - t = f + 1 := ⟨g * 1000 ^ t - t - 1, by omega⟩
  rw [hf, show (0 + t) = t from by omega]
  exact scaleGroupsF_small f g t hg1 hg2 ht sp hsp

/-- None of the four real tiers' singular forms ends in the feminine marker,
and on each of them the code's dual (`rstrip` of every trailing marker, then
the dual ending) is the plain concatenation with the dual ending — the same
text the claim's one-marker-stripping description produces. Settled by
evaluating the four singular forms. -/
theorem dual_forms :
    ∀ t : Nat, t < 4 →
      (SCALE.getD (t + 1) ([], [])).1.getLast? ≠ some 'ة' ∧
      dualize (SCALE.getD (t + 1) ([], [])).1 =
        (SCALE.getD (t + 1) ([], [])).1 ++ "ان".data := by
  decide

theorem tierGroupWords_eq_spec (t g : Nat) (ht : t < 4) :
    tierGroupWords (g + 1) (SCALE.getD (t + 1) ([], [])).1
      (SCALE.getD (t + 1) ([], [])).2 = tierWordsSpec (g + 1) (t + 1) := by
  have hd := dual_forms t ht
  unfold tierGroupWords tierWordsSpec
  dsimp only
  split_ifs with ha hb hc hd4
  · rfl
  · exact absurd hc hd.1
  · exact hd.2
  · rfl
  · rfl

/-- C4: for every tier index `t + 1` in [1, 4] and group value `g + 1` in
[1, 999], encoding `(g + 1) * 1000 ^ (t + 1)` produces exactly the words
the tier-agreement rule prescribes for that group and tier. -/
theorem C4_tier_agreement :
    ∀ t : Nat, t < 4 → ∀ g : Nat, g < 999 →
      number_to_words (((g + 1) * 1000 ^ (t + 1) : Nat) : Int)
        = some (tierWordsSpec (g + 1) (t + 1)) := by
  intro t ht g hg
  obtain ⟨sp, hsp⟩ : ∃ sp, SCALE[(t + 1)]? = some sp := by
    have hl : t + 1 < SCALE.length := by
      simp only [SCALE, List.length_map, List.length_cons]
      omega
    exact ⟨SCALE[t + 1], List.getElem?_eq_getElem hl⟩
  have hmain := scaleGroups_mul_pow (g + 1) (t + 1) (by omega) (by omega) (by omega) sp hsp
  have hpos : 0 < (g + 1) * 1000 ^ (t + 1) :=
    Nat.mul_pos (Nat.succ_pos g) (pow_pos (by norm_num) (t + 1))
  have h0 : ¬((((g + 1) * 1000 ^ (t + 1) : Nat) : Int) = 0) := by
    rw [Int.natCast_eq_zero]
    omega
  have hneg : ¬((((g + 1) * 1000 ^ (t + 1) : Nat) : Int) < 0) := by
    rw [Int.not_lt]
    exact Int.natCast_nonneg _
  have hsp1 : SCALE.getD (t + 1) ([], []) = sp := by
    rw [List.getD_eq_getElem?_getD, hsp]
    rfl
  unfold number_to_words
  rw [if_neg h0, if_neg hneg, Int.natAbs_ofNat, hmain]
  simp only [Option.map_some', List.reverse_singleton]
  rw [← hsp1]
  simp only [joinSep]
  rw [tierGroupWords_eq_spec t g ht]

theorem C4_tier_agreement_witness :
    (0 : Nat) < 4 ∧ (1 : Nat) < 999 ∧
      number_to_words (((1 + 1) * 1000 ^ (0 + 1) : Nat) : Int)
        = some (tierWordsSpec (1 + 1) (0 + 1)) :=
  ⟨by decide, by decide, C4_tier_agreement 0 (by decide) 1 (by decide)⟩

theorem C1_roundtrip_witness :
    (15 : Nat) < 1000 ∧
      (((number_to_words ((15 : Nat) : Int)).map words_to_number = some ((15 : Nat) : Int)) ↔
        ((15 : Nat) % 100 = 0 ∨ (2 ≤ (15 : Nat) % 100 ∧ (15 : Nat) % 100 ≤ 19))) :=
  ⟨by decide, C1_roundtrip_characterization 15 (by decide)⟩
